import Mathlib

/-!
Verification of the finance route of the financial-data-analyst app
(`app/api/finance/route.ts`): the request-assembly phase of `POST`
(input validation, message mapping, file-attachment rewriting) and the
response phase (`processToolResponse` and the final response assembly).

The embedding models the JavaScript runtime values the route manipulates
as an inductive type `JsVal` (objects are insertion-ordered association
lists, matching the enumeration order of non-numeric string keys in JS),
and models each statement of the route as a Lean function.  Failable JS
operations (property access on `undefined`/`null`, `Object.keys` of
`undefined`, strict-mode assignment to a primitive, `atob` of malformed
input) are modelled in the `Except String` monad; the string carried by
an error is the error message the route's `catch` blocks observe.
-/

/-- JavaScript runtime values as used by `app/api/finance/route.ts`.
Numbers are modelled as integers (the route never does arithmetic on
payload numbers), objects as insertion-ordered association lists. -/
inductive JsVal where
  | undefined
  | null
  | bool (b : Bool)
  | num (n : Int)
  | str (s : String)
  | arr (elems : List JsVal)
  | obj (fields : List (String × JsVal))

/-- JS truthiness: `undefined`, `null`, `false`, `0`, `""` are falsy;
every array and object (including empty ones) is truthy. -/
def truthy : JsVal → Bool
  | .undefined => false
  | .null => false
  | .bool b => b
  | .num n => n != 0
  | .str s => s != ""
  | .arr _ => true
  | .obj _ => true

/-- `Array.isArray`. -/
def isArray : JsVal → Bool
  | .arr _ => true
  | _ => false

/-- First binding of a key in an association list (in JS an object holds
each key once, so this is plain field lookup); absent keys read as
`undefined`. -/
def lookupField : List (String × JsVal) → String → JsVal
  | [], _ => .undefined
  | p :: rest, key => if p.1 = key then p.2 else lookupField rest key

/-- Non-throwing property read: own named fields of objects; any other
non-nullish receiver has none of the properties the route reads, so the
read yields `undefined`. -/
def getField : JsVal → String → JsVal
  | .obj fs, key => lookupField fs key
  | _, _ => .undefined

/-- Property read `v.key`: throws `TypeError` when the receiver is
`undefined` or `null`, otherwise reads the field. -/
def getProp (v : JsVal) (key : String) : Except String JsVal :=
  match v with
  | .undefined => .error "TypeError"
  | .null => .error "TypeError"
  | _ => .ok (getField v key)

mutual

/-- Rendering of one array element inside `Array.prototype.toString`:
nullish elements render as the empty string. -/
def jsElemToStr : JsVal → String
  | .undefined => ""
  | .null => ""
  | .bool true => "true"
  | .bool false => "false"
  | .num n => toString n
  | .str s => s
  | .arr xs => jsArrToStr xs
  | .obj _ => "[object Object]"

/-- `Array.prototype.toString`: elements joined by commas. -/
def jsArrToStr : List JsVal → String
  | [] => ""
  | [x] => jsElemToStr x
  | x :: y :: rest => jsElemToStr x ++ "," ++ jsArrToStr (y :: rest)

end

/-- JS `ToString` coercion (used for computed property keys and template
literals). -/
def jsToStr : JsVal → String
  | .undefined => "undefined"
  | .null => "null"
  | .bool true => "true"
  | .bool false => "false"
  | .num n => toString n
  | .str s => s
  | .arr xs => jsArrToStr xs
  | .obj _ => "[object Object]"

/-- Computed property read `v[key]` where the key is itself a JS value:
the key is coerced to a string first (`item[undefined]` reads property
`"undefined"`). -/
def getPropV (v : JsVal) (key : JsVal) : Except String JsVal :=
  getProp v (jsToStr key)

/-- JS `a || b`. -/
def jsOr (a b : JsVal) : JsVal :=
  if truthy a then a else b

/-- Strict equality of a value with a string literal (`v === "lit"`). -/
def isStrEq : JsVal → String → Bool
  | .str s, t => s = t
  | _, _ => false

/-- `Object.keys`: throws on `undefined`/`null`; own keys of an object in
insertion order; index keys for arrays and strings; no keys otherwise. -/
def objKeys : JsVal → Except String (List String)
  | .undefined => .error "TypeError"
  | .null => .error "TypeError"
  | .obj fs => .ok (fs.map Prod.fst)
  | .arr xs => .ok ((List.range xs.length).map toString)
  | .str s => .ok ((List.range s.length).map toString)
  | _ => .ok []

/-- `Object.entries`: throws on `undefined`/`null`; own entries of an
object in insertion order; index entries for arrays and strings; no
entries otherwise. -/
def objEntries : JsVal → Except String (List (String × JsVal))
  | .undefined => .error "TypeError"
  | .null => .error "TypeError"
  | .obj fs => .ok fs
  | .arr xs => .ok (xs.enum.map (fun p => (toString p.1, p.2)))
  | .str s => .ok (s.toList.enum.map (fun p => (toString p.1, .str (String.singleton p.2))))
  | _ => .ok []

/-- The own enumerable entries a spread `...v` contributes to an object
literal (`...null`, `...undefined` and non-string primitives contribute
nothing; arrays and strings contribute index entries). -/
def spreadFields : JsVal → List (String × JsVal)
  | .obj fs => fs
  | .arr xs => xs.enum.map (fun p => (toString p.1, p.2))
  | .str s => s.toList.enum.map (fun p => (toString p.1, .str (String.singleton p.2)))
  | _ => []

/-- Whether an association list binds a key. -/
def hasKey : List (String × JsVal) → String → Bool
  | [], _ => false
  | p :: rest, key => if p.1 = key then true else hasKey rest key

/-- Writing one key into an object's field list, as JS does: an existing
key keeps its position and gets the new value, a fresh key is appended. -/
def objInsert (fields : List (String × JsVal)) (key : String) (v : JsVal) :
    List (String × JsVal) :=
  if hasKey fields key then
    fields.map (fun p => if p.1 = key then (key, v) else p)
  else fields ++ [(key, v)]

/-- Field list produced by evaluating an object literal's parts left to
right (spread entries followed by explicit entries), so that duplicate
keys collapse to one binding: first occurrence fixes the position, last
occurrence fixes the value. -/
def mkObjAux (acc : List (String × JsVal)) : List (String × JsVal) → List (String × JsVal)
  | [] => acc
  | p :: rest => mkObjAux (objInsert acc p.1 p.2) rest

/-- Object-literal construction from a list of key/value parts. -/
def mkObj (pairs : List (String × JsVal)) : List (String × JsVal) :=
  mkObjAux [] pairs

/-- Property assignment `v.key = x`.  On an object the field is written
in place.  Assignment to a property of `undefined`/`null`, or of a
non-object primitive in strict mode (ES modules are strict), throws.
On an array the route would create an expando property, which is
invisible to `JSON.stringify` and to every later read the route
performs, so the array is returned unchanged. -/
def setProp : JsVal → String → JsVal → Except String JsVal
  | .obj fs, key, v => .ok (.obj (objInsert fs key v))
  | .arr xs, _, _ => .ok (.arr xs)
  | _, _, _ => .error "TypeError"

/-- `Array.prototype.map` with a callback in `Except` (the callback's
throw propagates out of the map). -/
def jsMapM (f : JsVal → Except String JsVal) : List JsVal → Except String (List JsVal)
  | [] => .ok []
  | x :: xs =>
    match f x with
    | .error e => .error e
    | .ok y =>
      match jsMapM f xs with
      | .error e => .error e
      | .ok ys => .ok (y :: ys)


/-! ## The Chart Data Normalizer: `processToolResponse` (route.ts lines 367-416) -/

/-- The CSS color variable assigned to the chart series at 1-based slot
`i` (route.ts line 406). -/
def colorSlot (i : Nat) : JsVal :=
  .str ("hsl(var(--chart-" ++ toString i ++ "))")

/-- One step of the pie transform's `.map` callback (route.ts lines
383-393), applied to one data row `item`.  The callback re-reads
`chartData.chartConfig` and `chartData.config.xAxisKey` on every row
 (both still un-mutated while the map runs):
`valueKey` is the first key of `chartConfig` (an absent first key is the
`undefined` property key), `segmentKey` is `config.xAxisKey || "segment"`,
and the produced row is the two-field object with the fallback chains
`item[segmentKey] || item.segment || item.category || item.name` and
`item[valueKey] || item.value`. -/
def pieMapRow (chartData item : JsVal) : Except String JsVal := do
  let chartConfig ← getProp chartData "chartConfig"
  let keys ← objKeys chartConfig
  let valueKey := match keys.head? with
    | some k => k
    | none => "undefined"
  let config ← getProp chartData "config"
  let xAxisKey ← getProp config "xAxisKey"
  let segmentKey := jsOr xAxisKey (.str "segment")
  let s1 ← getPropV item segmentKey
  let s2 ← getProp item "segment"
  let s3 ← getProp item "category"
  let s4 ← getProp item "name"
  let v1 ← getProp item valueKey
  let v2 ← getProp item "value"
  .ok (.obj [("segment", jsOr s1 (jsOr s2 (jsOr s3 s4))),
             ("value", jsOr v1 v2)])

/-- The `.reduce` of route.ts lines 400-410 building
`processedChartConfig`: fold over the entries of `chartConfig` with
their position, producing per key the object
`(...config, color: colorSlot (index+1))` accumulated into one object
literal.  `acc` is the accumulator object's field list, `i` the current
index. -/
def colorizeAux (acc : List (String × JsVal)) (i : Nat) :
    List (String × JsVal) → List (String × JsVal)
  | [] => acc
  | p :: rest =>
    colorizeAux
      (objInsert acc p.1 (.obj (mkObj (spreadFields p.2 ++ [("color", colorSlot (i + 1))]))))
      (i + 1) rest

/-- `Object.entries(chartData.chartConfig).reduce(...)` of route.ts
lines 400-410. -/
def colorizeEntries (entries : List (String × JsVal)) : List (String × JsVal) :=
  colorizeAux [] 0 entries

/-- The pie branch of route.ts lines 381-397: map every data row with
`pieMapRow`, then assign `chartData.data = mapped` and
`chartData.config.xAxisKey = "segment"` in place.  The caller's
`toolUseContent.input` aliases `chartData`, so its `input` field is
re-pointed to the mutated chart data.  Returns the pair of the mutated
chart data and the mutated tool-use block. -/
def pieTransform (toolUseContent chartData dat : JsVal) : Except String (JsVal × JsVal) := do
  let mapped ← jsMapM (pieMapRow chartData)
    (match dat with | .arr xs => xs | _ => [])
  let cd1 ← setProp chartData "data" (.arr mapped)
  let cfg ← getProp cd1 "config"
  let cfg2 ← setProp cfg "xAxisKey" (.str "segment")
  let cd2 ← setProp cd1 "config" cfg2
  let tuc2 ← setProp toolUseContent "input" cd2
  pure (cd2, tuc2)

/-- Route.ts lines 399-415: build `processedChartConfig` from
`Object.entries(chartData.chartConfig)` and return
`(...chartData, chartConfig: processedChartConfig)`.  The argument pair
is the (possibly pie-transformed) chart data and tool-use block. -/
def colorizePhase (step : JsVal × JsVal) : Except String (JsVal × JsVal) := do
  let chartConfig2 ← getProp step.1 "chartConfig"
  let entries ← objEntries chartConfig2
  let processed := colorizeEntries entries
  .ok (.obj (mkObj (spreadFields step.1 ++ [("chartConfig", .obj processed)])), step.2)

/-- `processToolResponse` (route.ts lines 367-416), over the tool-use
content block found in the service reply.  The result's first component
is the value the function returns (`null`, or the chart object
`(...chartData, chartConfig: processedChartConfig)`); since
`chartData` aliases `toolUseContent.input` and the pie branch assigns
`chartData.data` and `chartData.config.xAxisKey` in place, the second
component is `toolUseContent` as the caller observes it after the call
(its `input` re-pointed to the possibly mutated chart data).  An
`.error` is an exception reaching the route's outer `catch`. -/
def processToolResponse (toolUseContent : JsVal) : Except String (JsVal × JsVal) :=
  if truthy toolUseContent = false then .ok (.null, toolUseContent)
  else do
    let chartData ← getProp toolUseContent "input"
    let chartType ← getProp chartData "chartType"
    let dat ← getProp chartData "data"
    if truthy chartType = false || truthy dat = false || isArray dat = false then
      .error "Invalid chart data structure"
    else do
      let step ←
        if isStrEq chartType "pie" then pieTransform toolUseContent chartData dat
        else pure (chartData, toolUseContent)
      colorizePhase step

/-! ## Response assembly (route.ts lines 355-435) -/

/-- `response.content.find((c) => c.type === ty)` — the callback's
property read throws on a nullish element encountered before a match. -/
def findByType (ty : String) : List JsVal → Except String (Option JsVal)
  | [] => .ok none
  | c :: rest => do
    let t ← getProp c "type"
    if isStrEq t ty then .ok (some c) else findByType ty rest

/-- `response.content.some((c) => c.type === ty)` — same throw behavior
as `findByType`. -/
def anyByType (ty : String) : List JsVal → Except String Bool
  | [] => .ok false
  | c :: rest => do
    let t ← getProp c "type"
    if isStrEq t ty then .ok true else anyByType ty rest

/-- The JSON body of the route's 200 response (route.ts lines 422-428). -/
structure SuccessBody where
  content : JsVal
  hasToolUse : Bool
  toolUse : JsVal
  chartData : JsVal

/-- A response the route hands back for a parsed service reply: either
the 200 success body, or the error body built by the outer `catch`
(status, `error` string, optional `details` message). -/
inductive ApiOutcome where
  | success (body : SuccessBody)
  | failure (status : Nat) (error : String) (details : Option String)

/-- The response phase of `POST` (route.ts lines 355-435): given the
parsed service reply's `content` blocks, extract the first text block
and the first tool-use block, run `processToolResponse` on the latter,
and assemble the 200 body; any exception lands in the outer `catch`
(route.ts lines 436-457), which for a plain thrown `Error` (no
`statusCode` field) responds 500 with `error: "Bedrock API Error"` and
the exception message as `details`.  The `content.some(...)` of the log
at line 360 runs first, so a nullish content block throws before
anything else. -/
def respondE (content : List JsVal) : Except String SuccessBody := do
  let _ ← anyByType "tool_use" content
  let tu ← findByType "tool_use" content
  let tx ← findByType "text" content
  let processed ←
    match tu with
    | some t => do
      let pr ← processToolResponse t
      .ok (some pr)
    | none => .ok none
  let has ← anyByType "tool_use" content
  let contentText :=
    match tx with
    | some t => jsOr (getField t "text") (.str "")
    | none => .str ""
  match processed with
  | some pr => .ok ⟨contentText, has, pr.2, pr.1⟩
  | none => .ok ⟨contentText, has, .undefined, .null⟩

/-- The route's full response for a parsed service reply. -/
def respond (content : List JsVal) : ApiOutcome :=
  match respondE content with
  | .ok b => .success b
  | .error msg => .failure 500 "Bedrock API Error" (some msg)

/-! ## Request assembly phase of `POST` (route.ts lines 129-348) -/

/-- The destructured request body `{ messages, fileData, model }`
(route.ts line 129); a field absent from the JSON body destructures to
`undefined`. -/
structure RequestBody where
  messages : JsVal
  fileData : JsVal
  model : JsVal

/-- How the request-assembly phase ends: `reject status error` is an
early `Response` returned before the `InvokeModelCommand` is sent (so no
request reaches the generation service), `send msgs` means the phase
completed and the Bedrock payload is sent carrying `msgs` as its
`messages`. -/
inductive BuildOutcome where
  | reject (status : Nat) (error : String)
  | send (bedrockMessages : List JsVal)

/-- The `messages.map` callback of route.ts lines 155-158: project each
message to `(role: msg.role, content: msg.content)` (property reads
throw on a nullish element, landing in the outer `catch`). -/
def mapBedrockMessage (m : JsVal) : Except String JsVal := do
  let role ← getProp m "role"
  let content ← getProp m "content"
  .ok (.obj [("role", role), ("content", content)])

/-- The `isText` rewrite of route.ts lines 172-189: decode the base64
payload as UTF-8 text (`decodeURIComponent(escape(atob(base64)))`,
modelled by `atobUtf8`; a decode exception is an error), then replace
the last outbound message with a user message of two text blocks: the
decoded file contents prefixed with the file name, then the original
last message's content (`messages[messages.length - 1].content`, whose
read throws when `messages` is empty). -/
def textRewrite (atobUtf8 : String → Option String) (messages : List JsVal)
    (base64 fileName : JsVal) (bedrockMessages : List JsVal) :
    Except String (List JsVal) := do
  let textContent ←
    match atobUtf8 (jsToStr base64) with
    | some t => Except.ok t
    | none => Except.error "InvalidCharacterError"
  let lastMsg ←
    match messages.getLast? with
    | some m => Except.ok m
    | none => Except.error "TypeError"
  let lastText ← getProp lastMsg "content"
  .ok (bedrockMessages.set (bedrockMessages.length - 1)
    (JsVal.obj [("role", .str "user"),
      ("content", .arr [
        .obj [("type", .str "text"),
              ("text", .str ("File contents of " ++ jsToStr fileName ++ ":\n\n" ++ textContent))],
        .obj [("type", .str "text"), ("text", lastText)]])]))

/-- The image rewrite of route.ts lines 190-209: replace the last
outbound message with a user message of an image block (raw base64 and
media type) followed by a text block carrying the original last
message's content. -/
def imageRewrite (messages : List JsVal) (base64 mediaType : JsVal)
    (bedrockMessages : List JsVal) : Except String (List JsVal) := do
  let lastMsg ←
    match messages.getLast? with
    | some m => Except.ok m
    | none => Except.error "TypeError"
  let lastText ← getProp lastMsg "content"
  .ok (bedrockMessages.set (bedrockMessages.length - 1)
    (JsVal.obj [("role", .str "user"),
      ("content", .arr [
        .obj [("type", .str "image"),
              ("source", .obj [("type", .str "base64"),
                               ("media_type", mediaType),
                               ("data", base64)])],
        .obj [("type", .str "text"), ("text", lastText)]])]))

/-- The `try` block of route.ts lines 171-209: if `isText` is truthy,
apply the text rewrite; otherwise, if `mediaType` is a string starting
with `image/`, apply the image rewrite (`mediaType.startsWith` on a
non-string throws); any other string `mediaType` leaves the messages
untouched. -/
def fileTryBlock (atobUtf8 : String → Option String) (messages : List JsVal)
    (base64 mediaType isText fileName : JsVal) (bedrockMessages : List JsVal) :
    Except String (List JsVal) :=
  if truthy isText then
    textRewrite atobUtf8 messages base64 fileName bedrockMessages
  else
    match mediaType with
    | .str mt =>
      if mt.startsWith "image/" then
        imageRewrite messages base64 mediaType bedrockMessages
      else .ok bedrockMessages
    | _ => .error "TypeError"

/-- The request-assembly phase of `POST` (route.ts lines 129-348):
validate `messages` (must be a truthy array) and `model` (must be
truthy) with early 400 responses; map the messages; when `fileData` is
truthy, require a truthy `base64` (else 400 "No file data") and run the
file `try` block, whose exceptions become 400 "Failed to process file
content"; an exception thrown by the message mapping itself reaches the
outer `catch`, which responds 500 "Bedrock API Error".  A `send` result
is the point where the route builds the Bedrock payload and performs
the `InvokeModelCommand` network call. -/
def buildOutbound (atobUtf8 : String → Option String) (body : RequestBody) :
    BuildOutcome :=
  if truthy body.messages = false || isArray body.messages = false then
    .reject 400 "Messages array is required"
  else if truthy body.model = false then
    .reject 400 "Model selection is required"
  else
    let msgs := match body.messages with | .arr xs => xs | _ => []
    match jsMapM mapBedrockMessage msgs with
    | .error _ => .reject 500 "Bedrock API Error"
    | .ok bedrockMessages =>
      if truthy body.fileData then
        if truthy (getField body.fileData "base64") = false then
          .reject 400 "No file data"
        else
          match fileTryBlock atobUtf8 msgs (getField body.fileData "base64")
              (getField body.fileData "mediaType") (getField body.fileData "isText")
              (getField body.fileData "fileName") bedrockMessages with
          | .error _ => .reject 400 "Failed to process file content"
          | .ok ms => .send ms
      else .send bedrockMessages

/-! ## Derived read-outs, closed forms, and concrete inputs used by the
theorems -/

/-- The chart value `processToolResponse` returns for a tool-use block
(`undefined` when it throws); the `chartData` field of the 200 body. -/
def chartOf (toolUseContent : JsVal) : JsVal :=
  match processToolResponse toolUseContent with
  | .ok p => p.1
  | .error _ => .undefined

/-- The invocation's `input` as the caller observes it after
`processToolResponse` ran (`undefined` when it throws). -/
def inputAfter (toolUseContent : JsVal) : JsVal :=
  match processToolResponse toolUseContent with
  | .ok p => getField p.2 "input"
  | .error _ => .undefined

/-- Closed form of `colorizeEntries` when the entry keys are distinct
(as they always are for a JS object): entry `j` (0-based) of the input,
in order, becomes its spread with `color` bound to slot `i + j + 1`. -/
def colorizeSpec (i : Nat) : List (String × JsVal) → List (String × JsVal)
  | [] => []
  | p :: rest =>
    (p.1, .obj (mkObj (spreadFields p.2 ++ [("color", colorSlot (i + 1))]))) ::
      colorizeSpec (i + 1) rest

/-- A `generate_graph_data` tool-use block whose input carries the four
fields required by the tool's schema. -/
def graphToolUse (chartType : JsVal) (cfgFs : List (String × JsVal)) (dat : JsVal)
    (ccFs : List (String × JsVal)) : JsVal :=
  .obj [("type", .str "tool_use"), ("name", .str "generate_graph_data"),
        ("input", .obj [("chartType", chartType), ("config", .obj cfgFs),
                        ("data", dat), ("chartConfig", .obj ccFs)])]

/-- A tool-use block wrapping an arbitrary chart value as its input
(used to feed the normalizer its own output). -/
def rewrapToolUse (chart : JsVal) : JsVal :=
  .obj [("type", .str "tool_use"), ("name", .str "generate_graph_data"),
        ("input", chart)]

/-- A service reply block invoking the declared price-lookup tool
`get_stock_price` with a well-formed input per that tool's schema. -/
def stockPriceToolUse : JsVal :=
  .obj [("type", .str "tool_use"), ("id", .str "toolu_01"),
        ("name", .str "get_stock_price"),
        ("input", .obj [("ticker", .str "AAPL"), ("start", .str "2024-01-01"),
                        ("end", .str "2024-01-31")])]

/-- A `generate_graph_data` invocation whose `chartType` is the
unrecognized string "scatter" but whose `data` is an array. -/
def scatterToolUse : JsVal :=
  graphToolUse (.str "scatter")
    [("title", .str "T"), ("description", .str "D")]
    (.arr [.obj [("x", .num 1)]])
    [("x", .obj [("label", .str "X")])]

/-- A pie invocation whose rows are named by `config.xAxisKey = "name"`
and whose value series is the first `chartConfig` key `sales`. -/
def pieRenameToolUse : JsVal :=
  graphToolUse (.str "pie")
    [("title", .str "Alloc"), ("description", .str "d"), ("xAxisKey", .str "name")]
    (.arr [.obj [("name", .str "A"), ("sales", .num 5)]])
    [("sales", .obj [("label", .str "Sales")])]

/-- A bar invocation whose `data` is the empty array. -/
def emptyDataToolUse : JsVal :=
  graphToolUse (.str "bar")
    [("title", .str "t"), ("description", .str "d")]
    (.arr [])
    []

/-- A well-formed bar invocation (one row, one series with a
pre-existing color). -/
def barToolUse : JsVal :=
  graphToolUse (.str "bar")
    [("title", .str "T"), ("description", .str "D"), ("xAxisKey", .str "period")]
    (.arr [.obj [("period", .str "Q1"), ("revenue", .num 100)]])
    [("revenue", .obj [("label", .str "Revenue"), ("color", .str "red")])]

/-- A base64 decoder defined on the single payload `base64("hello")`,
standing in for `decodeURIComponent(escape(atob(s)))` in concrete runs. -/
def helloDecoder : String → Option String :=
  fun s => if s = "aGVsbG8=" then some "hello" else none

/-- A decoder that always fails (never consulted in the runs it is used
for). -/
def noDecoder : String → Option String := fun _ => none

set_option autoImplicit false

/-- The row the pie transform is specified to produce from a source
row: exactly the two keys `segment` and `value`, with `segment` drawn
from the row's field named `segKey` (the effective segment key,
`config.xAxisKey || "segment"`) falling back to the row's `segment`,
`category`, then `name` fields, and `value` drawn from the row's field
named by the first `chartConfig` key falling back to the row's `value`
field. -/
def pieSpecRow (segKey valueKey : String) (r : JsVal) : JsVal :=
  .obj [("segment", jsOr (getField r segKey)
          (jsOr (getField r "segment") (jsOr (getField r "category") (getField r "name")))),
        ("value", jsOr (getField r valueKey) (getField r "value"))]

/-- Whether an `ApiOutcome` is the 200 success response. -/
def isSuccess : ApiOutcome → Bool
  | .success _ => true
  | .failure _ _ _ => false

/-- The `chartData` field of the route's response for a service reply
(`undefined` when the route answered with an error response). -/
def chartDataOf (content : List JsVal) : JsVal :=
  match respond content with
  | .success b => b.chartData
  | .failure _ _ _ => .undefined

/-- A result in the `Except` monad whose only possible error message is
the `TypeError` of a JS runtime exception (as opposed to the explicitly
thrown "Invalid chart data structure"). -/
def onlyTypeErr {α : Type} (r : Except String α) : Prop :=
  ∀ e, r = .error e → e = "TypeError"

/-! ## General lemmas about the embedding -/

theorem ebind_ok {α β : Type} (a : α) (f : α → Except String β) :
    (Except.ok a >>= f : Except String β) = f a := rfl

theorem ebind_error {α β : Type} (e : String) (f : α → Except String β) :
    ((Except.error e : Except String α) >>= f) = .error e := rfl

theorem epure_eq_ok {α : Type} (a : α) : (pure a : Except String α) = .ok a := rfl

theorem getProp_not_nullish {v : JsVal} (k : String) (h1 : v ≠ .undefined) (h2 : v ≠ .null) :
    getProp v k = .ok (getField v k) := by
  cases v <;> simp_all [getProp]

theorem getProp_ok_inv {v x : JsVal} {k : String} (h : getProp v k = .ok x) :
    v ≠ .undefined ∧ v ≠ .null ∧ x = getField v k := by
  cases v <;> simp_all [getProp]

theorem jsMapM_congr_ok {f : JsVal → Except String JsVal} {g : JsVal → JsVal} :
    ∀ (l : List JsVal), (∀ x ∈ l, f x = .ok (g x)) → jsMapM f l = .ok (l.map g)
  | [], _ => rfl
  | x :: xs, h => by
    have hx := h x (List.mem_cons_self x xs)
    have ih := jsMapM_congr_ok xs (fun y hy => h y (List.mem_cons_of_mem x hy))
    simp [jsMapM, hx, ih]

theorem mapBedrockMessage_ok_inv {m y : JsVal} (h : mapBedrockMessage m = .ok y) :
    y = .obj [("role", getField m "role"), ("content", getField m "content")] := by
  cases m <;> simp_all [mapBedrockMessage, getProp, ebind_ok, ebind_error]

theorem jsMapM_mapBedrock_ok :
    ∀ {l out : List JsVal}, jsMapM mapBedrockMessage l = .ok out →
      out = l.map (fun m => JsVal.obj [("role", getField m "role"), ("content", getField m "content")]) := by
  intro l
  induction l with
  | nil =>
    intro out h
    simp [jsMapM] at h
    simp [h]
  | cons x xs ih =>
    intro out h
    unfold jsMapM at h
    cases hx : mapBedrockMessage x with
    | error e => rw [hx] at h; exact absurd h (by simp)
    | ok y =>
      rw [hx] at h
      cases hxs : jsMapM mapBedrockMessage xs with
      | error e => rw [hxs] at h; exact absurd h (by simp)
      | ok ys =>
        rw [hxs] at h
        have hy := mapBedrockMessage_ok_inv hx
        have hys := ih hxs
        simp at h
        simp [h.symm, hy, hys]

theorem hasKey_iff_mem (l : List (String × JsVal)) (k : String) :
    hasKey l k = true ↔ k ∈ l.map Prod.fst := by
  induction l with
  | nil => simp [hasKey]
  | cons p rest ih =>
    by_cases h : p.1 = k
    · simp [hasKey, h]
    · have h' : ¬(k = p.1) := fun e => h e.symm
      simp [hasKey, h, h', ih]

theorem hasKey_append (l1 l2 : List (String × JsVal)) (k : String) :
    hasKey (l1 ++ l2) k = (hasKey l1 k || hasKey l2 k) := by
  induction l1 with
  | nil => simp [hasKey]
  | cons p rest ih =>
    by_cases h : p.1 = k <;> simp [hasKey, h, ih]

theorem keys_objInsert_of_has {l : List (String × JsVal)} {k : String} (v : JsVal)
    (h : hasKey l k = true) :
    (objInsert l k v).map Prod.fst = l.map Prod.fst := by
  simp only [objInsert, h, if_true]
  simp
  intro a b _
  by_cases ha : a = k <;> simp [ha]

theorem objInsert_of_not_has {l : List (String × JsVal)} {k : String} (v : JsVal)
    (h : hasKey l k = false) :
    objInsert l k v = l ++ [(k, v)] := by
  simp [objInsert, h]

theorem lookupField_objInsert (l : List (String × JsVal)) (k : String) (v : JsVal) :
    lookupField (objInsert l k v) k = v := by
  by_cases h : hasKey l k
  · simp only [objInsert, h, if_true]
    induction l with
    | nil => simp [hasKey] at h
    | cons p rest ih =>
      by_cases hp : p.1 = k
      · simp [lookupField, hp]
      · have hr : hasKey rest k = true := by simpa [hasKey, hp] using h
        simp only [List.map_cons, lookupField]
        simp only [if_neg hp]
        exact ih hr
  · rw [objInsert_of_not_has v (by simpa using h)]
    induction l with
    | nil => simp [lookupField]
    | cons p rest ih =>
      have hp : ¬(p.1 = k) := by
        intro e; rw [hasKey] at h; exact h (by simp [e])
      have hr : ¬(hasKey rest k = true) := by
        intro e; rw [hasKey] at h; exact h (by simp [hp, e])
      simp only [List.cons_append, lookupField, if_neg hp]
      exact ih hr

theorem hasKey_objInsert (l : List (String × JsVal)) (k : String) (v : JsVal) :
    hasKey (objInsert l k v) k = true := by
  by_cases h : hasKey l k
  · simp only [objInsert, h, if_true]
    induction l with
    | nil => simp [hasKey] at h
    | cons p rest ih =>
      by_cases hp : p.1 = k
      · simp [hasKey, hp]
      · have hr : hasKey rest k = true := by simpa [hasKey, hp] using h
        simp only [List.map_cons, hasKey]
        simp only [if_neg hp]
        exact ih hr
  · rw [objInsert_of_not_has v (by simpa using h)]
    rw [hasKey_append]
    simp [hasKey]

theorem keys_objInsert_nodup {l : List (String × JsVal)} {k : String} (v : JsVal)
    (h : (l.map Prod.fst).Nodup) :
    ((objInsert l k v).map Prod.fst).Nodup := by
  by_cases hh : hasKey l k
  · rw [keys_objInsert_of_has v hh]; exact h
  · rw [objInsert_of_not_has v (by simpa using hh)]
    have hk : k ∉ l.map Prod.fst := by
      rw [← hasKey_iff_mem]; simpa using hh
    simp [List.nodup_append, h, hk]

theorem objInsert_eq_self {l : List (String × JsVal)} {k : String} {v : JsVal}
    (hnd : (l.map Prod.fst).Nodup) (hh : hasKey l k = true) (hk : lookupField l k = v) :
    objInsert l k v = l := by
  simp only [objInsert, hh, if_true]
  induction l with
  | nil => simp [hasKey] at hh
  | cons p rest ih =>
    by_cases hp : p.1 = k
    · have hv : v = p.2 := by
        rw [lookupField, if_pos hp] at hk; exact hk.symm
      have hkrest : p.1 ∉ rest.map Prod.fst := by
        rw [List.map_cons, List.nodup_cons] at hnd; exact hnd.1
      have hpt : ∀ q ∈ rest, (if q.1 = p.1 then (p.1, p.2) else q) = q := by
        intro q hq
        have hqn : ¬(q.1 = p.1) := by
          intro e; exact hkrest (by rw [← e]; exact List.mem_map_of_mem Prod.fst hq)
        simp [hqn]
      simp only [List.map_cons, if_pos hp, hv, ← hp]
      congr 1
      simpa using List.map_congr_left hpt
    · have hr : hasKey rest k = true := by simpa [hasKey, hp] using hh
      have hndr : (rest.map Prod.fst).Nodup := by
        rw [List.map_cons, List.nodup_cons] at hnd; exact hnd.2
      have hkr : lookupField rest k = v := by
        rw [lookupField, if_neg hp] at hk; exact hk
      simp only [List.map_cons, if_neg hp]
      congr 1
      exact ih hndr hr hkr

theorem mkObjAux_append (xs ys : List (String × JsVal)) :
    ∀ acc, mkObjAux acc (xs ++ ys) = mkObjAux (mkObjAux acc xs) ys := by
  induction xs with
  | nil => intro acc; rfl
  | cons p rest ih => intro acc; simp [mkObjAux, ih]

theorem mkObjAux_fresh :
    ∀ (l : List (String × JsVal)) (acc : List (String × JsVal)),
      (l.map Prod.fst).Nodup → (∀ k ∈ l.map Prod.fst, hasKey acc k = false) →
      mkObjAux acc l = acc ++ l
  | [], acc, _, _ => by simp [mkObjAux]
  | p :: rest, acc, hnd, hfresh => by
    have hp : hasKey acc p.1 = false := hfresh p.1 (by simp)
    have hnd' : (rest.map Prod.fst).Nodup := by
      rw [List.map_cons, List.nodup_cons] at hnd; exact hnd.2
    have hpn : p.1 ∉ rest.map Prod.fst := by
      rw [List.map_cons, List.nodup_cons] at hnd; exact hnd.1
    have hfresh' : ∀ k ∈ rest.map Prod.fst, hasKey (acc ++ [p]) k = false := by
      intro k hk
      rw [hasKey_append]
      have h1 : hasKey acc k = false := hfresh k (by simp [hk])
      have h2 : hasKey [p] k = false := by
        have : ¬(p.1 = k) := by intro e; exact hpn (e ▸ hk)
        simp [hasKey, this]
      simp [h1, h2]
    rw [mkObjAux, objInsert_of_not_has p.2 hp, mkObjAux_fresh rest (acc ++ [p]) hnd' hfresh']
    simp

theorem mkObj_of_nodup {l : List (String × JsVal)} (h : (l.map Prod.fst).Nodup) :
    mkObj l = l := by
  have := mkObjAux_fresh l [] h (by intro k _; rfl)
  simpa [mkObj] using this

theorem keys_mkObjAux_nodup :
    ∀ (l acc : List (String × JsVal)), (acc.map Prod.fst).Nodup →
      ((mkObjAux acc l).map Prod.fst).Nodup
  | [], _acc, h => h
  | p :: rest, acc, h =>
    keys_mkObjAux_nodup rest (objInsert acc p.1 p.2) (keys_objInsert_nodup p.2 h)

theorem keys_mkObj_nodup (l : List (String × JsVal)) :
    ((mkObj l).map Prod.fst).Nodup :=
  keys_mkObjAux_nodup l [] (by simp)

theorem colorizeAux_eq :
    ∀ (l : List (String × JsVal)) (acc : List (String × JsVal)) (i : Nat),
      (l.map Prod.fst).Nodup → (∀ k ∈ l.map Prod.fst, hasKey acc k = false) →
      colorizeAux acc i l = acc ++ colorizeSpec i l
  | [], acc, i, _, _ => by simp [colorizeAux, colorizeSpec]
  | p :: rest, acc, i, hnd, hfresh => by
    have hp : hasKey acc p.1 = false := hfresh p.1 (by simp)
    have hnd' : (rest.map Prod.fst).Nodup := by
      rw [List.map_cons, List.nodup_cons] at hnd; exact hnd.2
    have hpn : p.1 ∉ rest.map Prod.fst := by
      rw [List.map_cons, List.nodup_cons] at hnd; exact hnd.1
    have hfresh' : ∀ k ∈ rest.map Prod.fst,
        hasKey (acc ++ [(p.1, JsVal.obj (mkObj (spreadFields p.2 ++ [("color", colorSlot (i + 1))])))]) k = false := by
      intro k hk
      rw [hasKey_append]
      have h1 : hasKey acc k = false := hfresh k (by simp [hk])
      have hne : ¬(p.1 = k) := by intro e; exact hpn (e ▸ hk)
      simp [hasKey, h1, hne]
    rw [colorizeAux, objInsert_of_not_has _ hp,
        colorizeAux_eq rest _ (i + 1) hnd' hfresh']
    simp [colorizeSpec]

theorem colorizeEntries_eq_spec {l : List (String × JsVal)}
    (h : (l.map Prod.fst).Nodup) :
    colorizeEntries l = colorizeSpec 0 l := by
  have := colorizeAux_eq l [] 0 h (by intro k _; rfl)
  simpa [colorizeEntries] using this

theorem keys_colorizeSpec :
    ∀ (i : Nat) (l : List (String × JsVal)),
      (colorizeSpec i l).map Prod.fst = l.map Prod.fst
  | _, [] => rfl
  | i, p :: rest => by simp [colorizeSpec, keys_colorizeSpec (i + 1) rest]

theorem colorEntry_idem (i : Nat) (v : JsVal) :
    mkObj (spreadFields (JsVal.obj (mkObj (spreadFields v ++ [("color", colorSlot (i + 1))])))
        ++ [("color", colorSlot (i + 1))])
      = mkObj (spreadFields v ++ [("color", colorSlot (i + 1))]) := by
  have hspread : spreadFields (JsVal.obj (mkObj (spreadFields v ++ [("color", colorSlot (i + 1))])))
      = mkObj (spreadFields v ++ [("color", colorSlot (i + 1))]) := rfl
  rw [hspread]
  have happ : ∀ xs : List (String × JsVal), ∀ q : String × JsVal,
      mkObj (xs ++ [q]) = objInsert (mkObj xs) q.1 q.2 := by
    intro xs q
    unfold mkObj
    rw [mkObjAux_append]
    rfl
  have hws := happ (spreadFields v) ("color", colorSlot (i + 1))
  rw [happ, hws]
  have hnd : ((objInsert (mkObj (spreadFields v)) "color" (colorSlot (i + 1))).map Prod.fst).Nodup :=
    keys_objInsert_nodup _ (keys_mkObj_nodup _)
  rw [mkObj_of_nodup hnd]
  exact objInsert_eq_self hnd (hasKey_objInsert _ _ _) (lookupField_objInsert _ _ _)

theorem colorizeSpec_idem :
    ∀ (i : Nat) (l : List (String × JsVal)),
      colorizeSpec i (colorizeSpec i l) = colorizeSpec i l
  | _, [] => rfl
  | i, p :: rest => by
    simp only [colorizeSpec, colorEntry_idem i p.2, colorizeSpec_idem (i + 1) rest]

theorem only_ok {α : Type} (a : α) : onlyTypeErr (Except.ok a : Except String α) := by
  intro e h; exact absurd h (by simp)

theorem only_bind {α β : Type} {ma : Except String α} {f : α → Except String β}
    (h1 : onlyTypeErr ma) (h2 : ∀ a, onlyTypeErr (f a)) : onlyTypeErr (ma >>= f) := by
  cases ma with
  | error e =>
    intro e' h'
    rw [ebind_error] at h'
    have he : e = e' := by injection h'
    rw [← he]
    exact h1 e rfl
  | ok a =>
    rw [ebind_ok]
    exact h2 a

theorem getProp_onlyTypeErr (v : JsVal) (k : String) : onlyTypeErr (getProp v k) := by
  cases v <;> intro e h <;> simp [getProp] at h <;> exact h.symm

theorem objKeys_onlyTypeErr (v : JsVal) : onlyTypeErr (objKeys v) := by
  cases v <;> intro e h <;> simp [objKeys] at h <;> exact h.symm

theorem objEntries_onlyTypeErr (v : JsVal) : onlyTypeErr (objEntries v) := by
  cases v <;> intro e h <;> simp [objEntries] at h <;> exact h.symm

theorem setProp_onlyTypeErr (v : JsVal) (k : String) (x : JsVal) : onlyTypeErr (setProp v k x) := by
  cases v <;> intro e h <;> simp [setProp] at h <;> exact h.symm

theorem getPropV_onlyTypeErr (v key : JsVal) : onlyTypeErr (getPropV v key) :=
  getProp_onlyTypeErr v (jsToStr key)

theorem pieMapRow_onlyTypeErr (cd item : JsVal) : onlyTypeErr (pieMapRow cd item) := by
  unfold pieMapRow
  apply only_bind (getProp_onlyTypeErr _ _); intro chartConfig
  apply only_bind (objKeys_onlyTypeErr _); intro keys
  apply only_bind (getProp_onlyTypeErr _ _); intro config
  apply only_bind (getProp_onlyTypeErr _ _); intro xAxisKey
  apply only_bind (getPropV_onlyTypeErr _ _); intro s1
  apply only_bind (getProp_onlyTypeErr _ _); intro s2
  apply only_bind (getProp_onlyTypeErr _ _); intro s3
  apply only_bind (getProp_onlyTypeErr _ _); intro s4
  apply only_bind (getProp_onlyTypeErr _ _); intro v1
  apply only_bind (getProp_onlyTypeErr _ _); intro v2
  exact only_ok _

theorem jsMapM_onlyTypeErr {f : JsVal → Except String JsVal}
    (hf : ∀ x, onlyTypeErr (f x)) : ∀ (l : List JsVal), onlyTypeErr (jsMapM f l)
  | [] => only_ok _
  | x :: xs => by
    intro e h
    unfold jsMapM at h
    cases hx : f x with
    | error e1 =>
      rw [hx] at h; simp at h
      exact h ▸ hf x e1 hx
    | ok y =>
      rw [hx] at h
      cases hxs : jsMapM f xs with
      | error e2 =>
        rw [hxs] at h; simp at h
        exact h ▸ jsMapM_onlyTypeErr hf xs e2 hxs
      | ok ys => rw [hxs] at h; exact absurd h (by simp)

theorem pieTransform_onlyTypeErr (tu cd dat : JsVal) : onlyTypeErr (pieTransform tu cd dat) := by
  unfold pieTransform
  apply only_bind (jsMapM_onlyTypeErr (pieMapRow_onlyTypeErr cd) _); intro mapped
  apply only_bind (setProp_onlyTypeErr _ _ _); intro cd1
  apply only_bind (getProp_onlyTypeErr _ _); intro cfg
  apply only_bind (setProp_onlyTypeErr _ _ _); intro cfg2
  apply only_bind (setProp_onlyTypeErr _ _ _); intro cd2
  apply only_bind (setProp_onlyTypeErr _ _ _); intro tuc2
  exact only_ok _

theorem colorizePhase_onlyTypeErr (step : JsVal × JsVal) : onlyTypeErr (colorizePhase step) := by
  unfold colorizePhase
  apply only_bind (getProp_onlyTypeErr _ _); intro chartConfig2
  apply only_bind (objEntries_onlyTypeErr _); intro entries
  exact only_ok _

theorem processToolResponse_nonpie_compute (ct : JsVal) (hct : truthy ct = true)
    (hpie : isStrEq ct "pie" = false) (rows : List JsVal)
    (cfgFs ccFs : List (String × JsVal)) :
    processToolResponse (graphToolUse ct cfgFs (.arr rows) ccFs)
      = .ok (.obj [("chartType", ct), ("config", .obj cfgFs), ("data", .arr rows),
                   ("chartConfig", .obj (colorizeEntries ccFs))],
             graphToolUse ct cfgFs (.arr rows) ccFs) := by
  unfold processToolResponse
  rw [if_neg (by simp [graphToolUse, truthy])]
  rw [show getProp (graphToolUse ct cfgFs (.arr rows) ccFs) "input"
      = .ok (.obj [("chartType", ct), ("config", .obj cfgFs), ("data", .arr rows),
                   ("chartConfig", .obj ccFs)]) from rfl, ebind_ok]
  rw [show getProp (JsVal.obj [("chartType", ct), ("config", .obj cfgFs), ("data", .arr rows),
        ("chartConfig", .obj ccFs)]) "chartType" = .ok ct from rfl, ebind_ok]
  rw [show getProp (JsVal.obj [("chartType", ct), ("config", .obj cfgFs), ("data", .arr rows),
        ("chartConfig", .obj ccFs)]) "data" = .ok (.arr rows) from rfl, ebind_ok]
  rw [if_neg (by
    simp [hct, show truthy (JsVal.arr rows) = true from rfl,
      show isArray (JsVal.arr rows) = true from rfl])]
  rw [if_neg (by simp [hpie])]
  rfl

theorem pieMapRow_compute (cfgFs : List (String × JsVal)) (k0 : String) (e0 : JsVal)
    (ccRest : List (String × JsVal)) (dat : JsVal) (segKey : String) (r : JsVal)
    (hx : jsOr (lookupField cfgFs "xAxisKey") (.str "segment") = .str segKey)
    (h1 : r ≠ .undefined) (h2 : r ≠ .null) :
    pieMapRow (.obj [("chartType", .str "pie"), ("config", .obj cfgFs),
                     ("data", dat), ("chartConfig", .obj ((k0, e0) :: ccRest))]) r
      = .ok (.obj [("segment", jsOr (getField r segKey)
                      (jsOr (getField r "segment")
                        (jsOr (getField r "category") (getField r "name")))),
                   ("value", jsOr (getField r k0) (getField r "value"))]) := by
  unfold pieMapRow
  rw [show getProp (JsVal.obj [("chartType", JsVal.str "pie"), ("config", .obj cfgFs),
        ("data", dat), ("chartConfig", .obj ((k0, e0) :: ccRest))]) "chartConfig"
      = .ok (.obj ((k0, e0) :: ccRest)) from rfl, ebind_ok]
  rw [show objKeys (JsVal.obj ((k0, e0) :: ccRest)) = .ok (k0 :: ccRest.map Prod.fst) from rfl,
    ebind_ok]
  rw [show getProp (JsVal.obj [("chartType", JsVal.str "pie"), ("config", .obj cfgFs),
        ("data", dat), ("chartConfig", .obj ((k0, e0) :: ccRest))]) "config"
      = .ok (.obj cfgFs) from rfl, ebind_ok]
  rw [show getProp (JsVal.obj cfgFs) "xAxisKey" = .ok (lookupField cfgFs "xAxisKey") from rfl,
    ebind_ok]
  simp only [List.head?_cons, hx]
  rw [show getPropV r (JsVal.str segKey) = getProp r segKey from rfl]
  rw [getProp_not_nullish segKey h1 h2, ebind_ok]
  rw [getProp_not_nullish "segment" h1 h2, ebind_ok]
  rw [getProp_not_nullish "category" h1 h2, ebind_ok]
  rw [getProp_not_nullish "name" h1 h2, ebind_ok]
  rw [getProp_not_nullish k0 h1 h2, ebind_ok]
  rw [getProp_not_nullish "value" h1 h2, ebind_ok]

theorem processToolResponse_pie_compute (rows : List JsVal)
    (cfgFs : List (String × JsVal)) (k0 : String) (e0 : JsVal)
    (ccRest : List (String × JsVal)) (segKey : String)
    (hx : jsOr (lookupField cfgFs "xAxisKey") (.str "segment") = .str segKey)
    (hrows : ∀ r ∈ rows, r ≠ .undefined ∧ r ≠ .null) :
    processToolResponse (graphToolUse (.str "pie") cfgFs (.arr rows) ((k0, e0) :: ccRest))
      = .ok (.obj [("chartType", .str "pie"),
                   ("config", .obj (objInsert cfgFs "xAxisKey" (.str "segment"))),
                   ("data", .arr (rows.map (pieSpecRow segKey k0))),
                   ("chartConfig", .obj (colorizeEntries ((k0, e0) :: ccRest)))],
             .obj [("type", .str "tool_use"), ("name", .str "generate_graph_data"),
                   ("input", .obj [("chartType", .str "pie"),
                                   ("config", .obj (objInsert cfgFs "xAxisKey" (.str "segment"))),
                                   ("data", .arr (rows.map (pieSpecRow segKey k0))),
                                   ("chartConfig", .obj ((k0, e0) :: ccRest))])]) := by
  have hmap : jsMapM (pieMapRow (.obj [("chartType", .str "pie"), ("config", .obj cfgFs),
        ("data", .arr rows), ("chartConfig", .obj ((k0, e0) :: ccRest))])) rows
      = .ok (rows.map (pieSpecRow segKey k0)) :=
    jsMapM_congr_ok rows (fun r hr =>
      pieMapRow_compute cfgFs k0 e0 ccRest (.arr rows) segKey r hx (hrows r hr).1 (hrows r hr).2)
  unfold processToolResponse
  rw [if_neg (by simp [graphToolUse, truthy])]
  rw [show getProp (graphToolUse (.str "pie") cfgFs (.arr rows) ((k0, e0) :: ccRest)) "input"
      = .ok (.obj [("chartType", .str "pie"), ("config", .obj cfgFs), ("data", .arr rows),
                   ("chartConfig", .obj ((k0, e0) :: ccRest))]) from rfl, ebind_ok]
  rw [show getProp (JsVal.obj [("chartType", JsVal.str "pie"), ("config", .obj cfgFs),
        ("data", .arr rows), ("chartConfig", .obj ((k0, e0) :: ccRest))]) "chartType"
      = .ok (.str "pie") from rfl, ebind_ok]
  rw [show getProp (JsVal.obj [("chartType", JsVal.str "pie"), ("config", .obj cfgFs),
        ("data", .arr rows), ("chartConfig", .obj ((k0, e0) :: ccRest))]) "data"
      = .ok (.arr rows) from rfl, ebind_ok]
  rw [if_neg (by
    simp [show truthy (JsVal.str "pie") = true from rfl,
      show truthy (JsVal.arr rows) = true from rfl,
      show isArray (JsVal.arr rows) = true from rfl])]
  rw [if_pos (show isStrEq (JsVal.str "pie") "pie" = true from rfl)]
  show (pieTransform (graphToolUse (.str "pie") cfgFs (.arr rows) ((k0, e0) :: ccRest))
      (.obj [("chartType", .str "pie"), ("config", .obj cfgFs), ("data", .arr rows),
             ("chartConfig", .obj ((k0, e0) :: ccRest))]) (.arr rows) >>= colorizePhase) = _
  unfold pieTransform
  simp only [hmap, ebind_ok]
  rfl

theorem getLast?_set_last {α : Type} : ∀ (l : List α) (a : α), l ≠ [] →
    (l.set (l.length - 1) a).getLast? = some a
  | [], _, h => absurd rfl h
  | [_], _, _ => rfl
  | x :: y :: ys, a, _ => by
    have ih := getLast?_set_last (y :: ys) a (by simp)
    have hidx : (y :: ys).length - 1 = ys.length := by simp
    rw [hidx] at ih
    have hstep : (x :: y :: ys).set ((x :: y :: ys).length - 1) a
        = x :: (y :: ys).set ys.length a := by
      simp [List.set]
    rw [hstep]
    cases hs : (y :: ys).set ys.length a with
    | nil => exact absurd hs (by simp)
    | cons z zs =>
      rw [hs] at ih
      rw [List.getLast?_cons_cons]
      exact ih

theorem mem_of_getLast?_eq {α : Type} : ∀ {l : List α} {a : α}, l.getLast? = some a → a ∈ l
  | [], a, h => by simp [List.getLast?] at h
  | [x], a, h => by
    simp [List.getLast?] at h
    simp [h]
  | x :: y :: ys, a, h => by
    rw [List.getLast?_cons_cons] at h
    have := mem_of_getLast?_eq h
    simp [this]

theorem textRewrite_compute (dec : String → Option String) (msgs : List JsVal)
    (lastM : JsVal) (m b64 fn t : String) (bm : List JsVal)
    (hlast : msgs.getLast? = some lastM)
    (hlm1 : lastM ≠ .undefined) (hlm2 : lastM ≠ .null)
    (hcontent : getField lastM "content" = .str m)
    (hdec : dec b64 = some t) :
    textRewrite dec msgs (.str b64) (.str fn) bm
      = .ok (bm.set (bm.length - 1)
        (JsVal.obj [("role", .str "user"),
          ("content", .arr [
            .obj [("type", .str "text"),
                  ("text", .str ("File contents of " ++ fn ++ ":\n\n" ++ t))],
            .obj [("type", .str "text"), ("text", .str m)]])])) := by
  unfold textRewrite
  simp only [show jsToStr (JsVal.str b64) = b64 from rfl,
    show jsToStr (JsVal.str fn) = fn from rfl, hdec, hlast]
  simp only [ebind_ok]
  rw [getProp_not_nullish "content" hlm1 hlm2, ebind_ok, hcontent]

theorem textRewrite_ok_role (dec : String → Option String) (msgs : List JsVal)
    (b64 fn : JsVal) (bm out : List JsVal)
    (h : textRewrite dec msgs b64 fn bm = .ok out) :
    ∀ lm, out.getLast? = some lm → getField lm "role" = .str "user" := by
  intro lm hlm
  unfold textRewrite at h
  cases hdec : dec (jsToStr b64) with
  | none => rw [hdec] at h; simp [ebind_error] at h
  | some t =>
    rw [hdec] at h
    simp only [ebind_ok] at h
    cases hlast : msgs.getLast? with
    | none => rw [hlast] at h; simp [ebind_error] at h
    | some lastMsg =>
      rw [hlast] at h
      simp only [ebind_ok] at h
      cases hc : getProp lastMsg "content" with
      | error e => rw [hc] at h; simp [ebind_error] at h
      | ok c =>
        rw [hc] at h
        simp only [ebind_ok] at h
        simp at h
        rw [← h] at hlm
        by_cases hbm : bm = []
        · rw [hbm] at hlm
          exact absurd hlm (by simp [List.getLast?])
        · rw [getLast?_set_last bm _ hbm] at hlm
          have hle := hlm
          injection hle with h2
          rw [← h2]
          rfl

theorem imageRewrite_ok_role (msgs : List JsVal) (b64 mt : JsVal) (bm out : List JsVal)
    (h : imageRewrite msgs b64 mt bm = .ok out) :
    ∀ lm, out.getLast? = some lm → getField lm "role" = .str "user" := by
  intro lm hlm
  unfold imageRewrite at h
  cases hlast : msgs.getLast? with
  | none => rw [hlast] at h; simp [ebind_error] at h
  | some lastMsg =>
    rw [hlast] at h
    simp only [ebind_ok] at h
    cases hc : getProp lastMsg "content" with
    | error e => rw [hc] at h; simp [ebind_error] at h
    | ok c =>
      rw [hc] at h
      simp only [ebind_ok] at h
      simp at h
      rw [← h] at hlm
      by_cases hbm : bm = []
      · rw [hbm] at hlm
        exact absurd hlm (by simp [List.getLast?])
      · rw [getLast?_set_last bm _ hbm] at hlm
        have hle := hlm
        injection hle with h2
        rw [← h2]
        rfl

theorem fileTryBlock_rewrite_role (dec : String → Option String) (msgs : List JsVal)
    (b64 mt it fn : JsVal) (bm out : List JsVal)
    (happly : truthy it = true ∨
      (truthy it = false ∧ ∃ s : String, mt = .str s ∧ s.startsWith "image/" = true))
    (h : fileTryBlock dec msgs b64 mt it fn bm = .ok out) :
    ∀ lm, out.getLast? = some lm → getField lm "role" = .str "user" := by
  unfold fileTryBlock at h
  rcases happly with hit | ⟨hit, s, hmt, himg⟩
  · rw [if_pos hit] at h
    exact textRewrite_ok_role dec msgs b64 fn bm out h
  · rw [if_neg (by simp [hit]), hmt] at h
    simp only [himg, if_true] at h
    exact imageRewrite_ok_role msgs b64 (.str s) bm out h

theorem buildOutbound_send_inv (dec : String → Option String) (msgs : List JsVal)
    (fd model : JsVal) (out : List JsVal)
    (h : buildOutbound dec ⟨.arr msgs, fd, model⟩ = .send out) :
    ∃ bm, jsMapM mapBedrockMessage msgs = .ok bm ∧
      ((truthy fd = false ∧ out = bm) ∨
       (truthy fd = true ∧ truthy (getField fd "base64") = true ∧
        fileTryBlock dec msgs (getField fd "base64") (getField fd "mediaType")
          (getField fd "isText") (getField fd "fileName") bm = .ok out)) := by
  unfold buildOutbound at h
  rw [if_neg (by simp [show truthy (JsVal.arr msgs) = true from rfl,
      show isArray (JsVal.arr msgs) = true from rfl])] at h
  simp only [ebind_ok] at h
  by_cases hmod : truthy model = false
  · rw [if_pos hmod] at h; exact absurd h (by simp)
  · rw [if_neg hmod] at h
    cases hmap : jsMapM mapBedrockMessage msgs with
    | error e =>
      rw [hmap] at h
      simp at h
    | ok bm =>
      rw [hmap] at h
      simp only [ebind_ok] at h
      refine ⟨bm, rfl, ?_⟩
      by_cases hfd : truthy fd = true
      · rw [if_pos hfd] at h
        by_cases hb : truthy (getField fd "base64") = false
        · rw [if_pos hb] at h; simp at h
        · rw [if_neg hb] at h
          cases hfile : fileTryBlock dec msgs (getField fd "base64") (getField fd "mediaType")
              (getField fd "isText") (getField fd "fileName") bm with
          | error e => rw [hfile] at h; simp at h
          | ok ms =>
            have hms : ms = out := by
              rw [hfile] at h
              simp at h
              exact h
            exact Or.inr ⟨hfd, by simpa using hb, by rw [hms]⟩
      · rw [if_neg hfd] at h
        have hbm : bm = out := by injection h
        exact Or.inl ⟨by simpa using hfd, hbm.symm⟩

/-! ## Claim theorems -/

/-- C1: the spec claims a tool invocation whose tool name is not
`generate_graph_data` (e.g. `get_stock_price`) is returned to the caller
unchanged as opaque `toolUse`, with no chart validation applied to its
input and no error raised.  The route instead pipes the first `tool_use`
block through `processToolResponse` regardless of its `name`: a
well-formed `get_stock_price` invocation (its input has `ticker`,
`start`, `end` but no `chartType`/`data`) makes the route throw
"Invalid chart data structure" and answer 500 "Bedrock API Error" — the
invocation is not returned at all.  This theorem evaluates the route at
exactly that failing input. -/
theorem C1_other_tool_invocation_rejected :
    respond [stockPriceToolUse]
      = .failure 500 "Bedrock API Error" (some "Invalid chart data structure") := rfl

/-- C2 counterexample: the claim says chart validation rejects any
`chartType` outside the six known values; but the invocation
`scatterToolUse`, whose `chartType` is the unrecognized string
"scatter", passes validation and the normalizer succeeds on it. -/
theorem C2_counterexample_scatter_accepted :
    (processToolResponse scatterToolUse).isOk = true := rfl

/-- C2 amended: for a tool-use block whose `input` is a non-nullish
value `cd`, the Chart Data Normalizer fails with the chart-data error
"Invalid chart data structure" iff `cd.chartType` is absent or falsy, or
`cd.data` is absent/falsy or not an array.  Membership of `chartType` in
the six known values is NOT checked, so any truthy `chartType` (such as
"scatter") passes validation. -/
theorem C2_chart_error_iff (tfs : List (String × JsVal)) (cd : JsVal)
    (hcd : lookupField tfs "input" = cd) (h1 : cd ≠ .undefined) (h2 : cd ≠ .null) :
    (processToolResponse (.obj tfs) = .error "Invalid chart data structure")
      ↔ (truthy (getField cd "chartType") = false ∨ truthy (getField cd "data") = false
          ∨ isArray (getField cd "data") = false) := by
  have hin : getProp (JsVal.obj tfs) "input" = .ok cd := by
    simp [getProp, getField, hcd]
  have hct := getProp_not_nullish (v := cd) "chartType" h1 h2
  have hdat := getProp_not_nullish (v := cd) "data" h1 h2
  unfold processToolResponse
  rw [if_neg (by simp [truthy])]
  rw [hin, ebind_ok, hct, ebind_ok, hdat, ebind_ok]
  by_cases hA : truthy (getField cd "chartType") = false
  · rw [if_pos (by simp [hA])]
    simp [hA]
  · by_cases hB : truthy (getField cd "data") = false
    · rw [if_pos (by simp [hB])]
      simp [hB]
    · by_cases hC : isArray (getField cd "data") = false
      · rw [if_pos (by simp [hC])]
        simp [hC]
      · rw [if_neg (by simp [hA, hB, hC])]
        constructor
        · intro h
          by_cases hpie : isStrEq (getField cd "chartType") "pie" = true
          · rw [if_pos hpie] at h
            have h' : (pieTransform (JsVal.obj tfs) cd (getField cd "data") >>= colorizePhase)
                = Except.error "Invalid chart data structure" := h
            have hte := only_bind (pieTransform_onlyTypeErr _ _ _)
              (fun s => colorizePhase_onlyTypeErr s) _ h'
            exact absurd hte (by decide)
          · rw [if_neg hpie] at h
            have h' : ((pure (cd, JsVal.obj tfs) : Except String (JsVal × JsVal)) >>= colorizePhase)
                = Except.error "Invalid chart data structure" := h
            have hte := only_bind (only_ok _)
              (fun s => colorizePhase_onlyTypeErr s) _ h'
            exact absurd hte (by decide)
        · intro h
          rcases h with h | h | h
          · exact absurd h hA
          · exact absurd h hB
          · exact absurd h hC

/-- C2 witness: the amended claim applied at a concrete input — an
invocation whose `data` is the number 3 (not an array) is rejected with
the chart-data error. -/
theorem C2_chart_error_iff_witness :
    processToolResponse (.obj [("input", .obj [("chartType", .str "bar"), ("data", .num 3)])])
      = .error "Invalid chart data structure" :=
  (C2_chart_error_iff [("input", .obj [("chartType", .str "bar"), ("data", .num 3)])]
      (.obj [("chartType", .str "bar"), ("data", .num 3)]) rfl
      (fun h => JsVal.noConfusion h) (fun h => JsVal.noConfusion h)).mpr
    (Or.inr (Or.inr rfl))

/-- C3 counterexample: the claim says the normalizer never mutates the
invocation's input, including for pie charts.  For the pie invocation
`pieRenameToolUse` (rows keyed by `name`/`sales`, `config.xAxisKey =
"name"`), the input observed through the returned `toolUse` after
normalization has `config.xAxisKey = "segment"` (originally "name") and
its data rows replaced by `segment`/`value` rows — the input was mutated
in place and the `toolUse` returned to the caller reflects the
transformed input. -/
theorem C3_counterexample_pie_mutates_input :
    getField (getField (inputAfter pieRenameToolUse) "config") "xAxisKey" = .str "segment"
    ∧ getField (getField (getField pieRenameToolUse "input") "config") "xAxisKey" = .str "name"
    ∧ JsVal.str "segment" ≠ JsVal.str "name"
    ∧ getField (inputAfter pieRenameToolUse) "data"
        = .arr [.obj [("segment", .str "A"), ("value", .num 5)]]
    ∧ getField (getField pieRenameToolUse "input") "data"
        = .arr [.obj [("name", .str "A"), ("sales", .num 5)]] :=
  ⟨rfl, rfl,
    fun h => absurd (by injection h) (by decide : ¬("segment" = "name")),
    rfl, rfl⟩

/-- C3 amended: the Chart Data Normalizer leaves the invocation's input
unchanged from the caller's perspective only for non-pie chart types:
whenever `processToolResponse` succeeds on a tool-use block whose
`input.chartType` is not the string "pie", the tool-use block the
caller observes afterwards (second component) is exactly the original
block, so `input.data` and `input.config.xAxisKey` are untouched and
`toolUse` reflects the untransformed input. -/
theorem C3_nonpie_input_unchanged (tu r after : JsVal)
    (hpie : isStrEq (getField (getField tu "input") "chartType") "pie" = false)
    (h : processToolResponse tu = .ok (r, after)) :
    after = tu := by
  unfold processToolResponse at h
  by_cases ht : truthy tu = false
  · rw [if_pos ht] at h
    simp at h
    exact h.2.symm
  · rw [if_neg ht] at h
    have htu1 : tu ≠ .undefined := by intro e; subst e; exact ht rfl
    have htu2 : tu ≠ .null := by intro e; subst e; exact ht rfl
    rw [getProp_not_nullish "input" htu1 htu2, ebind_ok] at h
    cases hct : getProp (getField tu "input") "chartType" with
    | error e => rw [hct, ebind_error] at h; exact absurd h (by simp)
    | ok ct =>
      rw [hct, ebind_ok] at h
      have hctv : ct = getField (getField tu "input") "chartType" := (getProp_ok_inv hct).2.2
      cases hdat : getProp (getField tu "input") "data" with
      | error e => rw [hdat, ebind_error] at h; exact absurd h (by simp)
      | ok dat =>
        rw [hdat, ebind_ok] at h
        by_cases hval : (decide (truthy ct = false) || decide (truthy dat = false)
            || decide (isArray dat = false)) = true
        · rw [if_pos hval] at h; exact absurd h (by simp)
        · rw [if_neg hval] at h
          have hpie' : isStrEq ct "pie" = false := by rw [hctv]; exact hpie
          rw [if_neg (by simp [hpie'])] at h
          have h' : colorizePhase (getField tu "input", tu) = .ok (r, after) := h
          unfold colorizePhase at h'
          cases hcc : getProp (getField tu "input") "chartConfig" with
          | error e => rw [hcc, ebind_error] at h'; exact absurd h' (by simp)
          | ok cc =>
            rw [hcc, ebind_ok] at h'
            cases hent : objEntries cc with
            | error e => rw [hent, ebind_error] at h'; exact absurd h' (by simp)
            | ok entries =>
              rw [hent, ebind_ok] at h'
              simp at h'
              exact h'.2.symm

/-- C3 witness: the amended claim applied to the concrete bar
invocation `barToolUse` — the normalizer succeeds and the caller's
tool-use block afterwards is the original one. -/
theorem C3_nonpie_input_unchanged_witness :
    isStrEq (getField (getField barToolUse "input") "chartType") "pie" = false
    ∧ barToolUse = barToolUse :=
  ⟨rfl, C3_nonpie_input_unchanged barToolUse (chartOf barToolUse) barToolUse rfl rfl⟩

/-- C4: for a valid pie invocation (input with `chartType = "pie"`,
`config` object `cfgFs`, `data` an array of non-nullish rows, non-empty
`chartConfig` with first key `k0`), where `segKey` is the effective
segment key `config.xAxisKey || "segment"`: the normalizer succeeds,
every output data row is exactly the two-key object produced by
`pieSpecRow segKey k0` — `segment` from the row's field named by
`config.xAxisKey` (falling back to `segment`, `category`, `name`) and
`value` from the row's field named by the first `chartConfig` key
(falling back to the row's `value` field) — and the output
`config.xAxisKey` equals "segment" regardless of its input value. -/
theorem C4_pie_transform (rows : List JsVal) (cfgFs : List (String × JsVal)) (k0 : String)
    (e0 : JsVal) (ccRest : List (String × JsVal)) (segKey : String)
    (hx : jsOr (lookupField cfgFs "xAxisKey") (.str "segment") = .str segKey)
    (hrows : ∀ r ∈ rows, r ≠ .undefined ∧ r ≠ .null) :
    (processToolResponse (graphToolUse (.str "pie") cfgFs (.arr rows) ((k0, e0) :: ccRest))).isOk = true
    ∧ getField (chartOf (graphToolUse (.str "pie") cfgFs (.arr rows) ((k0, e0) :: ccRest))) "data"
        = .arr (rows.map (pieSpecRow segKey k0))
    ∧ getField (getField (chartOf (graphToolUse (.str "pie") cfgFs (.arr rows) ((k0, e0) :: ccRest)))
        "config") "xAxisKey" = .str "segment" := by
  have h := processToolResponse_pie_compute rows cfgFs k0 e0 ccRest segKey hx hrows
  refine ⟨by rw [h]; rfl, ?_, ?_⟩
  · simp [chartOf, h, getField, lookupField]
  · simp [chartOf, h, getField, lookupField, lookupField_objInsert]

/-- C4 witness: the pie claim applied to `pieRenameToolUse` — the row
keyed `name`/`sales` becomes exactly the row with keys
`segment`/`value`, and `config.xAxisKey` is forced to "segment". -/
theorem C4_pie_transform_witness :
    (processToolResponse pieRenameToolUse).isOk = true
    ∧ getField (chartOf pieRenameToolUse) "data"
        = .arr [.obj [("segment", .str "A"), ("value", .num 5)]]
    ∧ getField (getField (chartOf pieRenameToolUse) "config") "xAxisKey" = .str "segment" := by
  have h := C4_pie_transform [.obj [("name", .str "A"), ("sales", .num 5)]]
      [("title", .str "Alloc"), ("description", .str "d"), ("xAxisKey", .str "name")]
      "sales" (.obj [("label", .str "Sales")]) [] "name" rfl
      (by
        intro r hr
        rw [List.mem_singleton] at hr
        subst hr
        exact ⟨fun hh => JsVal.noConfusion hh, fun hh => JsVal.noConfusion hh⟩)
  exact ⟨h.1, h.2.1, h.2.2⟩

/-- C5: for every valid invocation whose `chartType` is one of the five
non-pie values, the normalizer returns the input `data` array unchanged
(same rows, same order) and a `chartConfig` equal to `colorizeSpec 0`
of the input entries: each key, in its original insertion order, mapped
to its original entry with `color` bound to the sequential 1-based slot
`hsl(var(--chart-(j+1)))` for its position, independent of any color
previously present.  The input (second component) is returned
unchanged. -/
theorem C5_nonpie_data_and_colors (t : String)
    (ht : t = "bar" ∨ t = "multiBar" ∨ t = "line" ∨ t = "area" ∨ t = "stackedArea")
    (rows : List JsVal) (cfgFs ccFs : List (String × JsVal))
    (hnd : (ccFs.map Prod.fst).Nodup) :
    processToolResponse (graphToolUse (.str t) cfgFs (.arr rows) ccFs)
      = .ok (.obj [("chartType", .str t), ("config", .obj cfgFs), ("data", .arr rows),
                   ("chartConfig", .obj (colorizeSpec 0 ccFs))],
             graphToolUse (.str t) cfgFs (.arr rows) ccFs) := by
  have hct : truthy (.str t) = true := by
    rcases ht with rfl | rfl | rfl | rfl | rfl <;> decide
  have hpie : isStrEq (.str t) "pie" = false := by
    rcases ht with rfl | rfl | rfl | rfl | rfl <;> decide
  rw [processToolResponse_nonpie_compute (.str t) hct hpie rows cfgFs ccFs,
      colorizeEntries_eq_spec hnd]

/-- C5 witness: the non-pie claim applied to `barToolUse` — its single
`revenue` series keeps its label, its pre-existing color "red" is
replaced by slot 1, and the data row passes through unchanged. -/
theorem C5_nonpie_data_and_colors_witness :
    processToolResponse barToolUse
      = .ok (.obj [("chartType", .str "bar"),
                   ("config", .obj [("title", .str "T"), ("description", .str "D"),
                                    ("xAxisKey", .str "period")]),
                   ("data", .arr [.obj [("period", .str "Q1"), ("revenue", .num 100)]]),
                   ("chartConfig", .obj [("revenue",
                      .obj [("label", .str "Revenue"),
                            ("color", .str "hsl(var(--chart-1))")])])],
             barToolUse) :=
  C5_nonpie_data_and_colors "bar" (Or.inl rfl)
    [.obj [("period", .str "Q1"), ("revenue", .num 100)]]
    [("title", .str "T"), ("description", .str "D"), ("xAxisKey", .str "period")]
    [("revenue", .obj [("label", .str "Revenue"), ("color", .str "red")])]
    (by simp)

/-- C6: idempotence — for a valid non-pie invocation, feeding the
normalizer's own output back in as an invocation input (same key
insertion order) succeeds and yields a `chartConfig` identical to the
first output's `chartConfig`: the color slots do not shift. -/
theorem C6_renormalize_idempotent (ct : JsVal) (hct : truthy ct = true)
    (hpie : isStrEq ct "pie" = false) (rows : List JsVal)
    (cfgFs ccFs : List (String × JsVal)) (hnd : (ccFs.map Prod.fst).Nodup) :
    (processToolResponse (rewrapToolUse (chartOf (graphToolUse ct cfgFs (.arr rows) ccFs)))).isOk = true
    ∧ getField (chartOf (rewrapToolUse (chartOf (graphToolUse ct cfgFs (.arr rows) ccFs)))) "chartConfig"
      = getField (chartOf (graphToolUse ct cfgFs (.arr rows) ccFs)) "chartConfig" := by
  have h1 := processToolResponse_nonpie_compute ct hct hpie rows cfgFs ccFs
  have hr1 : chartOf (graphToolUse ct cfgFs (.arr rows) ccFs)
      = .obj [("chartType", ct), ("config", .obj cfgFs), ("data", .arr rows),
              ("chartConfig", .obj (colorizeEntries ccFs))] := by
    simp [chartOf, h1]
  have h2 := processToolResponse_nonpie_compute ct hct hpie rows cfgFs (colorizeEntries ccFs)
  have hrew : rewrapToolUse (chartOf (graphToolUse ct cfgFs (.arr rows) ccFs))
      = graphToolUse ct cfgFs (.arr rows) (colorizeEntries ccFs) := by
    rw [hr1]; rfl
  have hidem : colorizeEntries (colorizeEntries ccFs) = colorizeEntries ccFs := by
    have hk : ((colorizeSpec 0 ccFs).map Prod.fst).Nodup := by
      rw [keys_colorizeSpec]; exact hnd
    rw [colorizeEntries_eq_spec hnd, colorizeEntries_eq_spec hk, colorizeSpec_idem,
        ← colorizeEntries_eq_spec hnd]
  constructor
  · rw [hrew, h2]; rfl
  · rw [hrew]
    have hr2 : chartOf (graphToolUse ct cfgFs (.arr rows) (colorizeEntries ccFs))
        = .obj [("chartType", ct), ("config", .obj cfgFs), ("data", .arr rows),
                ("chartConfig", .obj (colorizeEntries (colorizeEntries ccFs)))] := by
      simp [chartOf, h2]
    rw [hr2, hr1]
    simp [getField, lookupField, hidem]

/-- C6 witness: idempotence applied to a concrete bar invocation with
one series. -/
theorem C6_renormalize_idempotent_witness :
    (processToolResponse (rewrapToolUse (chartOf (graphToolUse (.str "bar")
        [("title", .str "T"), ("description", .str "D")] (.arr [])
        [("revenue", .obj [("label", .str "Revenue")])])))).isOk = true
    ∧ getField (chartOf (rewrapToolUse (chartOf (graphToolUse (.str "bar")
        [("title", .str "T"), ("description", .str "D")] (.arr [])
        [("revenue", .obj [("label", .str "Revenue")])])))) "chartConfig"
      = getField (chartOf (graphToolUse (.str "bar")
        [("title", .str "T"), ("description", .str "D")] (.arr [])
        [("revenue", .obj [("label", .str "Revenue")])])) "chartConfig" :=
  C6_renormalize_idempotent (.str "bar") rfl rfl []
    [("title", .str "T"), ("description", .str "D")]
    [("revenue", .obj [("label", .str "Revenue")])] (by simp)

/-- C7 counterexample: the claim says a missing `model` yields 400 with
body `Model selection is required`; but when `messages` is also missing
the route checks `messages` first and answers 400 with `Messages array
is required` instead, so the claim's body prediction fails on that
request. -/
theorem C7_counterexample_both_missing :
    buildOutbound noDecoder ⟨.undefined, .undefined, .undefined⟩
      = .reject 400 "Messages array is required"
    ∧ "Messages array is required" ≠ "Model selection is required" :=
  ⟨rfl, by decide⟩

/-- C7 amended: missing or non-array `messages` yields the early 400
"Messages array is required"; a missing (falsy) `model` yields the
early 400 "Model selection is required" only once `messages` is a
present array.  Both are `reject` outcomes, i.e. the route returns
before the `InvokeModelCommand` is built, so no request reaches the
generation service. -/
theorem C7_input_validation (dec : String → Option String) (body : RequestBody) :
    ((truthy body.messages = false ∨ isArray body.messages = false) →
       buildOutbound dec body = .reject 400 "Messages array is required")
    ∧ (truthy body.messages = true → isArray body.messages = true →
       truthy body.model = false →
       buildOutbound dec body = .reject 400 "Model selection is required") := by
  constructor
  · intro h
    unfold buildOutbound
    rcases h with h | h <;> rw [if_pos (by simp [h])]
  · intro h1 h2 h3
    unfold buildOutbound
    rw [if_neg (by simp [h1, h2]), if_pos h3]

/-- C7 witness: both validation errors observed on concrete bodies. -/
theorem C7_input_validation_witness :
    buildOutbound noDecoder ⟨.num 7, .undefined, .str "m"⟩
      = .reject 400 "Messages array is required"
    ∧ buildOutbound noDecoder ⟨.arr [], .undefined, .undefined⟩
      = .reject 400 "Model selection is required" :=
  ⟨(C7_input_validation noDecoder ⟨.num 7, .undefined, .str "m"⟩).1 (Or.inr rfl),
   (C7_input_validation noDecoder ⟨.arr [], .undefined, .undefined⟩).2 rfl rfl rfl⟩

/-- C8: for a request whose last message has text `m`, with a text
attachment (truthy `isText`) whose base64 payload `b64` decodes to `t`
and whose file name is `fn`, the assembly phase sends a message list
whose last message is the user message of exactly two text blocks, in
order: `File contents of fn:\n\nt` followed by `m`. -/
theorem C8_text_attachment (dec : String → Option String) (msgs : List JsVal)
    (lastM fd model : JsVal) (m b64 fn t : String)
    (hmodel : truthy model = true)
    (hlast : msgs.getLast? = some lastM)
    (hcontent : getField lastM "content" = .str m)
    (helems : ∀ x ∈ msgs, x ≠ .undefined ∧ x ≠ .null)
    (hfdT : truthy fd = true)
    (hb64 : getField fd "base64" = .str b64)
    (hb64t : b64 ≠ "")
    (hisText : truthy (getField fd "isText") = true)
    (hfn : getField fd "fileName" = .str fn)
    (hdec : dec b64 = some t) :
    ∃ out, buildOutbound dec ⟨.arr msgs, fd, model⟩ = .send out ∧
      out.getLast? = some (JsVal.obj [("role", .str "user"),
        ("content", .arr [
          .obj [("type", .str "text"),
                ("text", .str ("File contents of " ++ fn ++ ":\n\n" ++ t))],
          .obj [("type", .str "text"), ("text", .str m)]])]) := by
  have hlm := helems lastM (mem_of_getLast?_eq hlast)
  have hmapped : jsMapM mapBedrockMessage msgs
      = .ok (msgs.map (fun mm => JsVal.obj [("role", getField mm "role"),
          ("content", getField mm "content")])) :=
    jsMapM_congr_ok msgs (fun x hx => by
      unfold mapBedrockMessage
      rw [getProp_not_nullish "role" (helems x hx).1 (helems x hx).2, ebind_ok,
          getProp_not_nullish "content" (helems x hx).1 (helems x hx).2, ebind_ok])
  have hfile : fileTryBlock dec msgs (getField fd "base64") (getField fd "mediaType")
      (getField fd "isText") (getField fd "fileName")
      (msgs.map (fun mm => JsVal.obj [("role", getField mm "role"),
          ("content", getField mm "content")]))
      = .ok ((msgs.map (fun mm => JsVal.obj [("role", getField mm "role"),
          ("content", getField mm "content")])).set
            ((msgs.map (fun mm => JsVal.obj [("role", getField mm "role"),
                ("content", getField mm "content")])).length - 1)
            (JsVal.obj [("role", .str "user"),
              ("content", .arr [
                .obj [("type", .str "text"),
                      ("text", .str ("File contents of " ++ fn ++ ":\n\n" ++ t))],
                .obj [("type", .str "text"), ("text", .str m)]])])) := by
    unfold fileTryBlock
    rw [if_pos hisText, hb64, hfn]
    exact textRewrite_compute dec msgs lastM m b64 fn t _ hlast hlm.1 hlm.2 hcontent hdec
  unfold buildOutbound
  rw [if_neg (by simp [show truthy (JsVal.arr msgs) = true from rfl,
      show isArray (JsVal.arr msgs) = true from rfl])]
  rw [if_neg (by simp [hmodel])]
  simp only [hmapped]
  rw [if_pos hfdT]
  rw [if_neg (by simp [hb64, show truthy (JsVal.str b64) = (b64 != "") from rfl, hb64t])]
  simp only [hfile]
  refine ⟨_, rfl, ?_⟩
  apply getLast?_set_last
  intro hemp
  rw [List.map_eq_nil_iff] at hemp
  rw [hemp] at hlast
  exact absurd hlast (by simp [List.getLast?])

/-- C8 witness: base64("hello") attached as `a.txt` to the last message
"summarize" yields the two text blocks of the claim's example. -/
theorem C8_text_attachment_witness :
    ∃ out, buildOutbound helloDecoder
        ⟨.arr [.obj [("role", .str "user"), ("content", .str "summarize")]],
         .obj [("base64", .str "aGVsbG8="), ("fileName", .str "a.txt"),
               ("isText", .bool true)],
         .str "claude"⟩ = .send out ∧
      out.getLast? = some (JsVal.obj [("role", .str "user"),
        ("content", .arr [
          .obj [("type", .str "text"),
                ("text", .str ("File contents of " ++ "a.txt" ++ ":\n\n" ++ "hello"))],
          .obj [("type", .str "text"), ("text", .str "summarize")]])]) :=
  C8_text_attachment helloDecoder
    [.obj [("role", .str "user"), ("content", .str "summarize")]]
    (.obj [("role", .str "user"), ("content", .str "summarize")])
    (.obj [("base64", .str "aGVsbG8="), ("fileName", .str "a.txt"), ("isText", .bool true)])
    (.str "claude") "summarize" "aGVsbG8=" "a.txt" "hello"
    rfl rfl rfl
    (by
      intro x hx
      rw [List.mem_singleton] at hx
      subst hx
      exact ⟨fun hh => JsVal.noConfusion hh, fun hh => JsVal.noConfusion hh⟩)
    rfl rfl (by decide) rfl rfl rfl

/-- C9 counterexample: the claim says a returned `chartData` always has
a non-empty data array, but the bar invocation with `data: []` yields a
200 success whose `chartData` is non-null with an empty `data` array
(`![]` is false in JS, so an empty array passes the `!chartData.data`
check). -/
theorem C9_counterexample_empty_data_accepted :
    isSuccess (respond [emptyDataToolUse]) = true
    ∧ chartDataOf [emptyDataToolUse] ≠ .null
    ∧ getField (chartDataOf [emptyDataToolUse]) "data" = .arr [] :=
  ⟨rfl, fun h => JsVal.noConfusion h, rfl⟩

/-- C9 amended: every `ChartSpec` the normalizer returns has `data`
equal to the invocation's data array, which may be empty — an
invocation whose `data` is the empty array still yields a successful
non-null chart object with `data = []`. -/
theorem C9_chartdata_array_possibly_empty (ct : JsVal) (hct : truthy ct = true)
    (hpie : isStrEq ct "pie" = false) (cfgFs ccFs : List (String × JsVal)) :
    (processToolResponse (graphToolUse ct cfgFs (.arr []) ccFs)).isOk = true
    ∧ chartOf (graphToolUse ct cfgFs (.arr []) ccFs) ≠ .null
    ∧ getField (chartOf (graphToolUse ct cfgFs (.arr []) ccFs)) "data" = .arr [] := by
  have h := processToolResponse_nonpie_compute ct hct hpie [] cfgFs ccFs
  refine ⟨by rw [h]; rfl, ?_, ?_⟩
  · simp [chartOf, h]
  · simp [chartOf, h, getField, lookupField]

/-- C9 witness: the amended claim at the concrete empty-data bar
invocation. -/
theorem C9_chartdata_array_possibly_empty_witness :
    (processToolResponse (graphToolUse (.str "bar")
        [("title", .str "t"), ("description", .str "d")] (.arr []) [])).isOk = true
    ∧ chartOf (graphToolUse (.str "bar")
        [("title", .str "t"), ("description", .str "d")] (.arr []) []) ≠ .null
    ∧ getField (chartOf (graphToolUse (.str "bar")
        [("title", .str "t"), ("description", .str "d")] (.arr []) [])) "data" = .arr [] :=
  C9_chartdata_array_possibly_empty (.str "bar") rfl rfl
    [("title", .str "t"), ("description", .str "d")] []

/-- C10 (implicit): whenever a file attachment is applied — `isText`
truthy, or a string `mediaType` starting with `image/` — the rewritten
last outbound message's role is always "user", whatever the original
last message's role was; and when no file is attached every outbound
message, the last included, carries the original message's role
verbatim. -/
theorem C10_rewrite_forces_user_role (dec : String → Option String) (msgs : List JsVal)
    (fd model : JsVal) (out : List JsVal) :
    (truthy fd = true →
      (truthy (getField fd "isText") = true ∨
        (truthy (getField fd "isText") = false ∧
         ∃ s : String, getField fd "mediaType" = .str s ∧ s.startsWith "image/" = true)) →
      buildOutbound dec ⟨.arr msgs, fd, model⟩ = .send out →
      ∀ lm, out.getLast? = some lm → getField lm "role" = .str "user")
    ∧ (truthy fd = false →
      buildOutbound dec ⟨.arr msgs, fd, model⟩ = .send out →
      ∀ (i : Nat) (h1 : i < out.length) (h2 : i < msgs.length),
        getField (out.get ⟨i, h1⟩) "role" = getField (msgs.get ⟨i, h2⟩) "role") := by
  constructor
  · intro hfd happly hb lm hlm
    obtain ⟨bm, hmap, hcase⟩ := buildOutbound_send_inv dec msgs fd model out hb
    rcases hcase with ⟨hf, _⟩ | ⟨_, _, hfile⟩
    · exact absurd hf (by simp [hfd])
    · exact fileTryBlock_rewrite_role dec msgs _ _ _ _ bm out happly hfile lm hlm
  · intro hfd hb i h1 h2
    obtain ⟨bm, hmap, hcase⟩ := buildOutbound_send_inv dec msgs fd model out hb
    rcases hcase with ⟨_, hout⟩ | ⟨hf, _, _⟩
    · have hbm := jsMapM_mapBedrock_ok hmap
      subst hout
      subst hbm
      simp only [List.get_eq_getElem, List.getElem_map]
      simp [getField, lookupField]
    · exact absurd hf (by simp [hfd])

/-- C10 witness: a text attachment on a conversation whose last message
has role "assistant" still produces a last outbound message with role
"user"; with no attachment the assistant role passes through
verbatim. -/
theorem C10_rewrite_forces_user_role_witness :
    getField (JsVal.obj [("role", .str "user"),
      ("content", .arr [
        .obj [("type", .str "text"), ("text", .str "File contents of a.txt:\n\nhello")],
        .obj [("type", .str "text"), ("text", .str "hi")]])]) "role" = .str "user"
    ∧ getField (JsVal.obj [("role", .str "assistant"), ("content", .str "hi")]) "role"
      = getField (JsVal.obj [("role", .str "assistant"), ("content", .str "hi")]) "role" :=
  ⟨(C10_rewrite_forces_user_role helloDecoder
      [.obj [("role", .str "assistant"), ("content", .str "hi")]]
      (.obj [("base64", .str "aGVsbG8="), ("fileName", .str "a.txt"), ("isText", .bool true)])
      (.str "m")
      [.obj [("role", .str "user"),
        ("content", .arr [
          .obj [("type", .str "text"), ("text", .str "File contents of a.txt:\n\nhello")],
          .obj [("type", .str "text"), ("text", .str "hi")]])]]).1
      rfl (Or.inl rfl) rfl _ rfl,
   (C10_rewrite_forces_user_role helloDecoder
      [.obj [("role", .str "assistant"), ("content", .str "hi")]]
      .undefined (.str "m")
      [.obj [("role", .str "assistant"), ("content", .str "hi")]]).2
      rfl rfl 0 (by decide) (by decide)⟩
